import Mathlib

/-!
Verification development for the img2char asset pipeline:
a shallow embedding of the orchestration layer in
scripts/03_generate_characters/pipeline.py and of the resumable
downloader in scripts/03_generate_characters/scripts/download_weights.py,
together with theorems settling the frozen behavioural claims.

Filesystem paths are modelled as lists of components; file contents as
lists of bytes (Nat); external collaborators (the TripoSR subprocess, the
trimesh library, the Blender subprocess, the network) as explicit oracle
inputs, so that every embedded function is a total, executable Lean
function of its inputs.
-/

namespace ImgChar

/-- A filesystem path, as its list of components (an absolute path starts
with an empty component, so that rendering gives a leading slash). -/
abbrev PathC := List String

/-- Rendering of a path to its string form, components joined by slashes.
This models Python str(path) for the component-list representation. -/
def pathStr : PathC → String
  | [] => ""
  | [c] => c
  | c :: cs => c ++ "/" ++ pathStr cs

/-- Index of the last dot in a character list, if any. -/
def lastDotIdx (cs : List Char) : Option Nat :=
  match cs.reverse.indexOf? '.' with
  | some k => some (cs.length - 1 - k)
  | none => none

/-- Python pathlib stem of a file name: the name with its suffix removed.
The suffix exists only when the last dot sits strictly inside the name
(neither first nor last character), matching pathlib semantics. -/
def pStem (name : String) : String :=
  let cs := name.toList
  match lastDotIdx cs with
  | some i => if 0 < i ∧ i < cs.length - 1 then String.mk (cs.take i) else name
  | none => name

/-- Python pathlib suffix of a file name (including the dot), or the empty
string when there is none. -/
def pSuffix (name : String) : String :=
  let cs := name.toList
  match lastDotIdx cs with
  | some i => if 0 < i ∧ i < cs.length - 1 then String.mk (cs.drop i) else ""
  | none => ""

/-! ## Chunked resumable fetcher

Embeds download_with_resume from scripts/download_weights.py.  The remote
server is an oracle: the HEAD probe result is the `remote` parameter
(None when get_remote_size failed or the header was absent), and each
ranged GET issued by the download loop consumes the next entry of a
response `script`.  File contents are byte lists; the partial file and the
destination file are `Option (List Nat)` (none = the file does not exist).
Every externally visible action is recorded in an event trace. -/

/-- Python truthiness of the optional remote size: None and 0 are falsy.
Every `if remote_size and ...` in the source goes through this test. -/
def truthy : Option Nat → Bool
  | none => false
  | some n => n != 0

/-- Externally visible actions of the fetcher: the HEAD probe, a ranged
GET (recording the resume offset and requested chunk length), the fixed
backoff sleep, deleting the destination, renaming partial to destination. -/
inductive NetEv
  | headReq
  | getReq (offset : Nat) (chunk : Nat)
  | sleep (secs : Nat)
  | unlinkDest
  | renameToDest
deriving DecidableEq, Repr

/-- One ranged GET outcome: the connection failed before anything was
written, or the connection opened and `bytes` were streamed and flushed to
the partial file before the request ended (ok = ended without exception;
ok = false models a network error after `bytes` were already flushed). -/
inductive Response
  | connFail
  | body (bytes : List Nat) (ok : Bool)
deriving DecidableEq, Repr

/-- Result of the download while-loop: whether the loop exited (false =
the response script was exhausted while the loop still wanted more data),
the final partial file, and the trace of loop actions. -/
structure LoopOut where
  finished : Bool
  pfile : Option (List Nat)
  evs : List NetEv
deriving DecidableEq, Repr

/-- The top-of-loop exit test of the source:
`if remote_size and current_size >= remote_size: break`. -/
def topBreak (remote : Option Nat) (pf : Option (List Nat)) : Bool :=
  truthy remote && decide (remote.getD 0 ≤ (pf.getD []).length)

/-- The download while-loop of download_with_resume (lines 89 to 147).
Each iteration recomputes the resume offset from the current partial file
length, issues a ranged GET, appends whatever bytes arrived, and then
either breaks (zero bytes, or a short final chunk), retries after a 5s
sleep (network error), or continues with the next full chunk. -/
def fetchLoop (remote : Option Nat) (chunk : Nat) :
    Option (List Nat) → List Response → LoopOut
  | pf, script =>
    if topBreak remote pf then ⟨true, pf, []⟩
    else
      match script with
      | [] => ⟨false, pf, []⟩
      | Response.connFail :: rest =>
        let out := fetchLoop remote chunk pf rest
        ⟨out.finished, out.pfile,
          NetEv.getReq (pf.getD []).length chunk :: NetEv.sleep 5 :: out.evs⟩
      | Response.body bytes ok :: rest =>
        let pf' := some ((pf.getD []) ++ bytes)
        if ok then
          if bytes.length = 0 then
            ⟨true, pf', [NetEv.getReq (pf.getD []).length chunk]⟩
          else if bytes.length < chunk then
            ⟨true, pf', [NetEv.getReq (pf.getD []).length chunk]⟩
          else
            let out := fetchLoop remote chunk pf' rest
            ⟨out.finished, out.pfile,
              NetEv.getReq (pf.getD []).length chunk :: out.evs⟩
        else
          let out := fetchLoop remote chunk pf' rest
          ⟨out.finished, out.pfile,
            NetEv.getReq (pf.getD []).length chunk :: NetEv.sleep 5 :: out.evs⟩

/-- Overall fetch outcome: result (some true = reported success, some
false = reported failure, none = the loop ran out of scripted responses),
final destination file, final partial file, full event trace. -/
structure FetchOut where
  result : Option Bool
  dest : Option (List Nat)
  pfile : Option (List Nat)
  evs : List NetEv
deriving DecidableEq, Repr

/-- The post-loop verification of download_with_resume (lines 149 to 158):
compare the final partial size against the expected size; on mismatch
report failure leaving the partial file in place, otherwise rename the
partial file to the destination and report success. -/
def finishTransfer (remote : Option Nat) (pf : Option (List Nat)) : FetchOut :=
  if truthy remote && ((pf.getD []).length != remote.getD 0) then
    ⟨some false, none, pf, []⟩
  else
    ⟨some true, pf, none, [NetEv.renameToDest]⟩

/-- The body of download_with_resume after the destination check: the
resume-from-partial promotion (lines 71 to 77), then the loop, then the
final verification.  The destination is absent here (it was either absent
or just unlinked). -/
def fetchBody (remote : Option Nat) (chunk : Nat) (pf0 : Option (List Nat))
    (script : List Response) (evs0 : List NetEv) : FetchOut :=
  let existing := (pf0.getD []).length
  if decide (0 < existing) && topBreak remote pf0 then
    ⟨some true, pf0, none, evs0 ++ [NetEv.renameToDest]⟩
  else
    let lo := fetchLoop remote chunk pf0 script
    if lo.finished then
      let fin := finishTransfer remote lo.pfile
      ⟨fin.result, fin.dest, fin.pfile, evs0 ++ lo.evs ++ fin.evs⟩
    else
      ⟨none, none, lo.pfile, evs0 ++ lo.evs⟩

/-- download_with_resume (lines 49 to 158).  `remote` is what the initial
HEAD probe reported (always issued, and always the first event); if the
destination already exists with exactly the reported size the function
returns success at once, otherwise an existing destination is deleted as
stale and the transfer proceeds against the partial file. -/
def download_with_resume (remote : Option Nat) (chunk : Nat)
    (dest0 : Option (List Nat)) (pf0 : Option (List Nat))
    (script : List Response) : FetchOut :=
  match dest0 with
  | some d =>
    if truthy remote && (d.length == remote.getD 0) then
      ⟨some true, some d, pf0, [NetEv.headReq]⟩
    else
      fetchBody remote chunk pf0 script [NetEv.headReq, NetEv.unlinkDest]
  | none => fetchBody remote chunk pf0 script [NetEv.headReq]

/-- Recognizer for trace entries that are network requests. -/
def isNetRequest : NetEv → Bool
  | NetEv.headReq => true
  | NetEv.getReq _ _ => true
  | _ => false

/-- First ranged GET in a trace, with its offset and chunk length. -/
def firstGet : List NetEv → Option (Nat × Nat)
  | [] => none
  | NetEv.getReq o c :: _ => some (o, c)
  | _ :: rest => firstGet rest

/-! ## Work item discovery and output layout

Embeds find_images, relative_output_dir and the manifest construction of
pipeline.py.  The filesystem is an oracle: the list of existing files
(each a component-list path).  Directories are implicit (every proper
prefix of a file path). -/

/-- The fixed image-format allow-list (pipeline.py line 40). -/
def IMAGE_EXTENSIONS : List String := [".png", ".jpg", ".jpeg", ".webp", ".bmp"]

/-- Abstract filesystem: the set of existing regular files. -/
structure FSys where
  files : List PathC

/-- The order in which Python sorts Path objects: PurePath comparison is
lexicographic on the tuple of path components (parts), not on the joined
path string.  Componentwise: a smaller head decides, an equal head
recurses, and a shorter list precedes its extensions. -/
def partsLE : PathC → PathC → Bool
  | [], _ => true
  | _ :: _, [] => false
  | x :: xs, y :: ys =>
    if x < y then true
    else if y < x then false
    else partsLE xs ys

theorem partsLE_trans (a : PathC) : ∀ b c, partsLE a b = true → partsLE b c = true →
    partsLE a c = true := by
  induction a with
  | nil =>
    intro b c _ _
    rfl
  | cons x xs ih =>
    intro b c hab hbc
    cases b with
    | nil => simp [partsLE] at hab
    | cons y ys =>
      cases c with
      | nil => simp [partsLE] at hbc
      | cons z zs =>
        simp only [partsLE] at hab hbc ⊢
        by_cases hxy : x < y
        · by_cases hyz : y < z
          · simp [lt_trans hxy hyz]
          · by_cases hzy : z < y
            · rw [if_neg hyz, if_pos hzy] at hbc
              exact Bool.noConfusion hbc
            · have heq : y = z := le_antisymm (le_of_not_lt hzy) (le_of_not_lt hyz)
              subst heq
              simp [hxy]
        · by_cases hyx : y < x
          · rw [if_neg hxy, if_pos hyx] at hab
            exact Bool.noConfusion hab
          · have hexy : x = y := le_antisymm (le_of_not_lt hyx) (le_of_not_lt hxy)
            subst hexy
            rw [if_neg hxy, if_neg hyx] at hab
            by_cases hxz : x < z
            · simp [hxz]
            · by_cases hzx : z < x
              · rw [if_neg hxz, if_pos hzx] at hbc
                exact Bool.noConfusion hbc
              · rw [if_neg hxz, if_neg hzx] at hbc
                rw [if_neg hxz, if_neg hzx]
                exact ih ys zs hab hbc

theorem partsLE_total (a : PathC) : ∀ b, (partsLE a b || partsLE b a) = true := by
  induction a with
  | nil =>
    intro b
    rfl
  | cons x xs ih =>
    intro b
    cases b with
    | nil => simp [partsLE]
    | cons y ys =>
      simp only [partsLE]
      by_cases hxy : x < y
      · simp [hxy]
      · by_cases hyx : y < x
        · simp [hxy, hyx]
        · simp only [if_neg hxy, if_neg hyx]
          exact ih ys

/-- find_images (pipeline.py lines 82 to 91).  A single file input is
returned as a one-item list.  Otherwise the source iterates
sorted(input_path.rglob("*")) keeping regular files with an allowed
extension; sorted compares Path objects, and PurePath orders paths
componentwise on their parts tuple (partsLE here), so the matching files
are collected and sorted by partsLE (filtering a sorted enumeration
equals sorting the filtered files). -/
def find_images (fs : FSys) (input_path : PathC) : List PathC :=
  if input_path ∈ fs.files then [input_path]
  else
    ((fs.files.filter fun f =>
        decide (input_path <+: f) && decide (f ≠ input_path)).mergeSort partsLE).filter
      fun f => decide ((pSuffix (f.getLastD "")).toLower ∈ IMAGE_EXTENSIONS)

/-- Discovery-time fatal error.  Modelled from the spec name NotFoundError;
the source (pipeline.py lines 328 to 331) reports the condition and exits
the run with status 1 before any processing starts. -/
inductive DiscoverError
  | NotFoundError
deriving DecidableEq, Repr

/-- Discovery as invoked by main: an empty find_images result (input path
missing, or a directory with no matching files) aborts the run. -/
def discover (fs : FSys) (input_path : PathC) : Except DiscoverError (List PathC) :=
  let images := find_images fs input_path
  if images.isEmpty then Except.error DiscoverError.NotFoundError
  else Except.ok images

/-- Python relative_to: strip the root from the front of the path, or fail
(ValueError) when the root is not a prefix. -/
def pathRelativeTo (p root : PathC) : Option PathC :=
  if root.isPrefixOf p then some (p.drop root.length) else none

/-- relative_output_dir (pipeline.py lines 94 to 104): output directory
for an image, mirroring the relative path of the image under the input
root, with the file name replaced by its stem. -/
def relative_output_dir (image_path input_root output_dir : PathC) : Option PathC :=
  (pathRelativeTo image_path input_root).map fun rel =>
    output_dir ++ rel.dropLast ++
      (match rel.getLast? with
       | some n => [pStem n]
       | none => [])

/-! ## Stage functions and the per-item pipeline runner

Embeds generate_mesh, decimate_mesh, rig_mesh, should_rig and
process_single of pipeline.py.  Each external collaborator (TripoSR
subprocess, trimesh, Blender subprocess) is an oracle recording what the
black box did; the embedded stage functions reproduce the decisions the
source makes on top of those outcomes, raising by returning Except.error
with the exception message the source would format. -/

/-- Per-item result record (pipeline.py lines 56 to 64), with elapsed
times as abstract Nat readings of the monotonic clock. -/
structure CharacterResult where
  name : String
  image_path : String
  mesh_path : String := ""
  rigged_path : String := ""
  mesh_time : Nat := 0
  rig_time : Nat := 0
  error : String := ""
deriving DecidableEq, Repr

/-- What the external TripoSR invocation did: its exit code, whether it
left mesh.obj and/or mesh.glb in the conventional output subdirectory,
and the elapsed time reading. -/
structure MeshEngine where
  returncode : Int
  objExists : Bool
  glbExists : Bool
  elapsed : Nat := 0

/-- generate_mesh (pipeline.py lines 107 to 151): nonzero exit raises;
otherwise the artifact is looked up first as mesh.obj then as mesh.glb
under charOutput/0, and absence of both raises. -/
def generate_mesh (eng : MeshEngine) (name : String) (char_output : PathC) :
    Except String PathC :=
  if eng.returncode ≠ 0 then
    Except.error ("TripoSR failed for " ++ name ++ " (exit code " ++
      toString eng.returncode ++ ")")
  else if eng.objExists then Except.ok (char_output ++ ["0", "mesh.obj"])
  else if eng.glbExists then Except.ok (char_output ++ ["0", "mesh.glb"])
  else
    Except.error ("No mesh found in " ++ pathStr (char_output ++ ["0"]))

/-- A loaded mesh, reduced to what the source inspects: its face count. -/
structure Mesh where
  faces : Nat
deriving DecidableEq, Repr

/-- Outcome of decimate_mesh: the returned (path, original_faces,
new_faces) triple, plus whether the mesh file was rewritten (the export
call), which the source performs only on the decimation branch. -/
structure DecimateOut where
  path : PathC
  original_faces : Nat
  new_faces : Nat
  wrote : Bool
deriving DecidableEq, Repr

/-- decimate_mesh (pipeline.py lines 154 to 175).  `load` is the oracle
for trimesh.load on the mesh file (error = any exception raised by the
stage), `sf` the oracle for simplify_quadric_decimation, mapping the
requested face ceiling to the face count of the simplified mesh.  At or
below the ceiling the function is a no-op reporting the unchanged count;
above it the simplified mesh is exported over the same path. -/
def decimate_mesh (load : Except String Mesh) (mesh_path : PathC) (max_faces : Nat)
    (sf : Nat → Nat) : Except String DecimateOut :=
  match load with
  | Except.error e => Except.error e
  | Except.ok mesh =>
    if mesh.faces ≤ max_faces then
      Except.ok ⟨mesh_path, mesh.faces, mesh.faces, false⟩
    else
      Except.ok ⟨mesh_path, mesh.faces, sf max_faces, true⟩

/-- What the external Blender invocation did: its exit code, and whether
the expected output file exists afterwards. -/
structure RigEngine where
  returncode : Int
  outputExists : Bool
  elapsed : Nat := 0

/-- rig_mesh (pipeline.py lines 178 to 200): nonzero exit raises; a zero
exit without the output file present also raises (defensive check). -/
def rig_mesh (eng : RigEngine) (output_path : PathC) : Except String PathC :=
  if eng.returncode ≠ 0 then
    Except.error ("Blender rigging failed (exit code " ++
      toString eng.returncode ++ ")")
  else if !eng.outputExists then
    Except.error ("Rigged file not created: " ++ pathStr output_path)
  else Except.ok output_path

/-- Substring containment of character lists by direct scan: the needle
occurs as a contiguous run somewhere in the haystack.  This implements
the Python `in` operator on strings. -/
def hasInfix (needle : List Char) : List Char → Bool
  | [] => needle.isEmpty
  | c :: rest => needle.isPrefixOf (c :: rest) || hasInfix needle rest

/-- should_rig (pipeline.py lines 203 to 212): with no configured
patterns everything is rigged; otherwise the rendered image path must
contain some pattern bracketed by slashes, or start with the pattern
followed by a slash. -/
def should_rig (image_path : String) (rig_dirs : Option (List String)) : Bool :=
  match rig_dirs with
  | none => true
  | some ds => ds.any fun d =>
      hasInfix ("/" ++ d ++ "/").toList image_path.toList ||
        (d ++ "/").toList.isPrefixOf image_path.toList

/-- The already-validated configuration surface process_single consumes. -/
structure PipeConfig where
  export_format : String
  skip_rig : Bool
  rig_dirs : Option (List String)
  max_faces : Option Nat
  blender_bin : Option String

/-- Oracles for the three external collaborators of one item. -/
structure ItemOracles where
  meshEngine : MeshEngine
  decimateLoad : Except String Mesh
  simplifyFaces : Nat → Nat
  rigEngine : RigEngine

/-- Stage identifiers, recorded in the order the stage functions are
actually invoked for an item. -/
inductive StageTag
  | meshS
  | decimateS
  | rigS
deriving DecidableEq, Repr

/-- The rig section of process_single (pipeline.py lines 258 to 278):
compute the gate, return the accumulated result untouched when the gate
fails or Blender was not located, otherwise invoke rig_mesh on the
conventional rigged output path, recording either the rigged path and
elapsed time or the stage error. -/
def rigPhase (cfg : PipeConfig) (o : ItemOracles) (image_path char_output : PathC)
    (name : String) (r1 : CharacterResult) (tr : List StageTag) :
    CharacterResult × List StageTag :=
  let do_rig := !cfg.skip_rig && should_rig (pathStr image_path) cfg.rig_dirs
  if !do_rig || cfg.blender_bin.isNone then (r1, tr)
  else
    let rigged_path := char_output ++ [name ++ "_rigged." ++ cfg.export_format]
    match rig_mesh o.rigEngine rigged_path with
    | Except.ok p =>
      ({ r1 with rigged_path := pathStr p, rig_time := o.rigEngine.elapsed },
        tr ++ [StageTag.rigS])
    | Except.error e =>
      ({ r1 with error := "rigging: " ++ e }, tr ++ [StageTag.rigS])

/-- process_single (pipeline.py lines 215 to 278).  Every stage call sits
inside a try/except whose handler records the error and short-circuits,
so the function always returns a CharacterResult.  The pre-stage
relative_to computation cannot fail for items discovered under the input
root (main passes the input directory, or the parent of a single-file
input), so its Option is discharged with a default here. -/
def process_single (cfg : PipeConfig) (o : ItemOracles)
    (image_path input_root output_dir : PathC) :
    CharacterResult × List StageTag :=
  let name := pStem (image_path.getLastD "")
  let char_output := (relative_output_dir image_path input_root output_dir).getD output_dir
  let base : CharacterResult := { name := name, image_path := pathStr image_path }
  match generate_mesh o.meshEngine name char_output with
  | Except.error e =>
    ({ base with error := "mesh generation: " ++ e }, [StageTag.meshS])
  | Except.ok mp =>
    let r1 := { base with
      mesh_path := pathStr mp, mesh_time := o.meshEngine.elapsed }
    match cfg.max_faces with
    | none => rigPhase cfg o image_path char_output name r1 [StageTag.meshS]
    | some mx =>
      match decimate_mesh o.decimateLoad mp mx o.simplifyFaces with
      | Except.error e =>
        ({ r1 with error := "decimation: " ++ e },
          [StageTag.meshS, StageTag.decimateS])
      | Except.ok _ =>
        rigPhase cfg o image_path char_output name r1
          [StageTag.meshS, StageTag.decimateS]

/-- The batch scheduler reduced to its observable content: every item is
processed by process_single and all outcomes are collected.  The list
order is the completion order (= input order for a single worker). -/
def runBatch (cfg : PipeConfig) (items : List (PathC × ItemOracles))
    (input_root output_dir : PathC) : List CharacterResult :=
  items.map fun it => (process_single cfg it.2 it.1 input_root output_dir).1

/-- One entry of the persisted manifest (pipeline.py lines 399 to 413). -/
structure ManifestEntry where
  name : String
  image : String
  mesh : String
  rigged : String
  mesh_time : Nat
  rig_time : Nat
  error : String
deriving DecidableEq, Repr

/-- Projection of a CharacterResult to its manifest entry. -/
def manifestEntry (r : CharacterResult) : ManifestEntry :=
  ⟨r.name, r.image_path, r.mesh_path, r.rigged_path, r.mesh_time, r.rig_time, r.error⟩

/-- The characters array of the persisted manifest: built by iterating
the collected results directly (pipeline.py lines 401 to 412). -/
def manifestCharacters (results : List CharacterResult) : List ManifestEntry :=
  results.map manifestEntry

/-- The order in which the console summary prints the results:
sorted(results, key=lambda x: x.name) (pipeline.py line 391). -/
def summaryOrder (results : List CharacterResult) : List CharacterResult :=
  results.mergeSort fun a b => decide (a.name ≤ b.name)

/-- Whether the mesh stage fails for the given oracle: nonzero exit, or
neither candidate artifact present. -/
def meshFails (o : ItemOracles) : Bool :=
  (o.meshEngine.returncode != 0) ||
    (!o.meshEngine.objExists && !o.meshEngine.glbExists)

/-- Whether the decimation stage (when configured) succeeds. -/
def decimOK (cfg : PipeConfig) (o : ItemOracles) : Bool :=
  match cfg.max_faces with
  | none => true
  | some _ => o.decimateLoad.isOk

/-- Whether the rig stage is actually invoked for this item: the gate of
pipeline.py lines 259 to 260. -/
def rigGate (cfg : PipeConfig) (p : PathC) : Bool :=
  !cfg.skip_rig && should_rig (pathStr p) cfg.rig_dirs && cfg.blender_bin.isSome

/-- Whether the rig stage, if invoked, succeeds. -/
def rigOK (o : ItemOracles) : Bool :=
  (o.rigEngine.returncode == 0) && o.rigEngine.outputExists

/-- All stages that run for this item succeed. -/
def itemSucceeds (cfg : PipeConfig) (p : PathC) (o : ItemOracles) : Bool :=
  !meshFails o && decimOK cfg o && (!rigGate cfg p || rigOK o)

/-! ## Helper lemmas -/

theorem pathStr_cons_cons (a b : String) (t : List String) :
    pathStr (a :: b :: t) = a ++ "/" ++ pathStr (b :: t) := rfl

theorem length_le_pathStr_concat (l : List String) (s : String) :
    s.length ≤ (pathStr (l ++ [s])).length := by
  induction l with
  | nil => simp [pathStr]
  | cons a l ih =>
    cases l with
    | nil =>
      simp [pathStr, String.length_append]
    | cons b l' =>
      have hsh : (a :: b :: l') ++ [s] = a :: b :: (l' ++ [s]) := by simp
      rw [hsh, pathStr_cons_cons]
      have hlen : (a ++ "/" ++ pathStr (b :: (l' ++ [s]))).length =
          a.length + 1 + (pathStr (b :: (l' ++ [s]))).length := by
        rw [String.length_append, String.length_append]
        rfl
      have ih2 : s.length ≤ (pathStr ((b :: l') ++ [s])).length := ih
      rw [List.cons_append] at ih2
      omega

theorem pathStr_concat_ne_empty (l : List String) (s : String) (h : s.length ≠ 0) :
    pathStr (l ++ [s]) ≠ "" := by
  intro hc
  have h2 := length_le_pathStr_concat l s
  rw [hc] at h2
  have h0 : ("" : String).length = 0 := rfl
  rw [h0] at h2
  omega

theorem string_append_ne_empty (a b : String) (h : a.length ≠ 0) : a ++ b ≠ "" := by
  intro hc
  have hl := congrArg String.length hc
  rw [String.length_append] at hl
  have h0 : ("" : String).length = 0 := rfl
  rw [h0] at hl
  omega

theorem rigSkip_eq (cfg : PipeConfig) (p : PathC) :
    (!(!cfg.skip_rig && should_rig (pathStr p) cfg.rig_dirs) || cfg.blender_bin.isNone) =
      !rigGate cfg p := by
  unfold rigGate
  cases cfg.blender_bin <;> cases cfg.skip_rig <;>
    cases hsr : should_rig (pathStr p) cfg.rig_dirs <;> simp [hsr]

theorem decimate_mesh_ok_isOk (m : Mesh) (mp : PathC) (mx : Nat) (sf : Nat → Nat) :
    ∃ d, decimate_mesh (Except.ok m) mp mx sf = Except.ok d := by
  unfold decimate_mesh
  by_cases h : m.faces ≤ mx <;> simp [h]

theorem rigPhase_skip (cfg : PipeConfig) (o : ItemOracles) (p c : PathC)
    (name : String) (r1 : CharacterResult) (tr : List StageTag)
    (hg : rigGate cfg p = false) :
    rigPhase cfg o p c name r1 tr = (r1, tr) := by
  have hc : (!(!cfg.skip_rig && should_rig (pathStr p) cfg.rig_dirs) ||
      cfg.blender_bin.isNone) = true := by
    rw [rigSkip_eq, hg]
    rfl
  unfold rigPhase
  simp only [hc, if_true]

theorem rigPhase_run_trace (cfg : PipeConfig) (o : ItemOracles) (p c : PathC)
    (name : String) (r1 : CharacterResult) (tr : List StageTag)
    (hg : rigGate cfg p = true) :
    (rigPhase cfg o p c name r1 tr).2 = tr ++ [StageTag.rigS] := by
  have hc : (!(!cfg.skip_rig && should_rig (pathStr p) cfg.rig_dirs) ||
      cfg.blender_bin.isNone) = false := by
    rw [rigSkip_eq, hg]
    rfl
  unfold rigPhase
  simp only [hc, Bool.false_eq_true, if_false]
  cases hr : rig_mesh o.rigEngine (c ++ [name ++ "_rigged." ++ cfg.export_format]) <;>
    simp [hr]

theorem rigPhase_ok_fields (cfg : PipeConfig) (o : ItemOracles) (p c : PathC)
    (name : String) (r1 : CharacterResult) (tr : List StageTag)
    (hr : (!rigGate cfg p || rigOK o) = true) :
    (rigPhase cfg o p c name r1 tr).1.error = r1.error ∧
    (rigPhase cfg o p c name r1 tr).1.mesh_path = r1.mesh_path := by
  by_cases hg : rigGate cfg p = true
  · have hok : rigOK o = true := by
      rcases Bool.or_eq_true_iff.mp hr with h | h
      · rw [hg] at h
        simp at h
      · exact h
    have hrc : o.rigEngine.returncode = 0 := by
      have := (Bool.and_eq_true _ _).mp hok
      simpa using this.1
    have hout : o.rigEngine.outputExists = true := by
      have := (Bool.and_eq_true _ _).mp hok
      simpa using this.2
    have hc : (!(!cfg.skip_rig && should_rig (pathStr p) cfg.rig_dirs) ||
        cfg.blender_bin.isNone) = false := by
      rw [rigSkip_eq, hg]
      rfl
    unfold rigPhase
    simp only [hc, Bool.false_eq_true, if_false]
    simp [rig_mesh, hrc, hout]
  · have hg' : rigGate cfg p = false := by
      cases hgv : rigGate cfg p
      · rfl
      · exact absurd hgv hg
    rw [rigPhase_skip cfg o p c name r1 tr hg']
    exact ⟨rfl, rfl⟩

theorem rigPhase_C10 (cfg : PipeConfig) (o : ItemOracles) (p c : PathC)
    (name : String) (r1 : CharacterResult) (tr : List StageTag)
    (hm : r1.mesh_path ≠ "") (hrg : r1.rigged_path = "") (he : r1.error = "") :
    ((rigPhase cfg o p c name r1 tr).1.rigged_path ≠ "" →
      (rigPhase cfg o p c name r1 tr).1.mesh_path ≠ "" ∧
      (rigPhase cfg o p c name r1 tr).1.error = "") ∧
    ((rigPhase cfg o p c name r1 tr).1.mesh_path = "" →
      (rigPhase cfg o p c name r1 tr).1.error ≠ "") := by
  unfold rigPhase
  by_cases hskip : (!(!cfg.skip_rig && should_rig (pathStr p) cfg.rig_dirs) ||
      cfg.blender_bin.isNone) = true
  · simp only [hskip, if_true]
    exact ⟨fun hh => absurd hrg hh, fun h2 => absurd h2 hm⟩
  · simp only [hskip, if_false]
    cases hr : rig_mesh o.rigEngine (c ++ [name ++ "_rigged." ++ cfg.export_format]) with
    | ok pp =>
      simp only [hr]
      exact ⟨fun _ => ⟨hm, he⟩, fun h2 => absurd h2 hm⟩
    | error e =>
      simp only [hr]
      exact ⟨fun hh => absurd hrg hh, fun h2 => absurd h2 hm⟩

theorem pathStr_two_ne (c : PathC) (a b : String) (hb : b.length ≠ 0) :
    pathStr (c ++ [a, b]) ≠ "" := by
  have h := pathStr_concat_ne_empty (c ++ [a]) b hb
  rw [List.append_assoc] at h
  exact h

theorem process_single_mesh_fail (cfg : PipeConfig) (o : ItemOracles)
    (p ir od : PathC) (h : meshFails o = true) :
    (process_single cfg o p ir od).2 = [StageTag.meshS] ∧
    (process_single cfg o p ir od).1.error ≠ "" ∧
    (process_single cfg o p ir od).1.mesh_path = "" := by
  unfold process_single
  by_cases hne : o.meshEngine.returncode ≠ 0
  · simp only [generate_mesh, if_pos hne]
    exact ⟨trivial, string_append_ne_empty _ _ (by decide), trivial⟩
  · have hrc0 : o.meshEngine.returncode = 0 := not_not.mp hne
    have hobs : o.meshEngine.objExists = false ∧ o.meshEngine.glbExists = false := by
      simpa [meshFails, hrc0] using h
    simp only [generate_mesh, if_neg hne, hobs.1, hobs.2, Bool.false_eq_true, if_false]
    exact ⟨trivial, string_append_ne_empty _ _ (by decide), trivial⟩

theorem process_single_ok (cfg : PipeConfig) (o : ItemOracles) (p ir od : PathC)
    (h : itemSucceeds cfg p o = true) :
    (process_single cfg o p ir od).1.error = "" ∧
    (process_single cfg o p ir od).1.mesh_path ≠ "" := by
  have h3 := h
  simp only [itemSucceeds, Bool.and_eq_true] at h3
  obtain ⟨⟨hm, hd⟩, hr⟩ := h3
  have hmf : meshFails o = false := by simpa using hm
  have hmf' := hmf
  simp only [meshFails, Bool.or_eq_false_iff] at hmf'
  obtain ⟨hrc', hog'⟩ := hmf'
  have hrc0 : o.meshEngine.returncode = 0 := by simpa using hrc'
  have hne : ¬ (o.meshEngine.returncode ≠ 0) := by simp [hrc0]
  have hog : o.meshEngine.objExists = true ∨ o.meshEngine.glbExists = true := by
    cases hobjv : o.meshEngine.objExists with
    | true => exact Or.inl rfl
    | false =>
      cases hglbv : o.meshEngine.glbExists with
      | true => exact Or.inr rfl
      | false =>
        rw [hobjv, hglbv] at hog'
        simp at hog'
  have hrr : (!rigGate cfg p || rigOK o) = true := hr
  have main : ∀ mp : PathC, generate_mesh o.meshEngine
        (pStem (p.getLastD "")) ((relative_output_dir p ir od).getD od) = Except.ok mp →
      pathStr mp ≠ "" →
      (process_single cfg o p ir od).1.error = "" ∧
      (process_single cfg o p ir od).1.mesh_path ≠ "" := by
    intro mp hgm hmpne
    unfold process_single
    simp only [hgm]
    cases hmx : cfg.max_faces with
    | none =>
      have hfields := rigPhase_ok_fields cfg o p ((relative_output_dir p ir od).getD od)
        (pStem (p.getLastD ""))
        { name := pStem (p.getLastD ""), image_path := pathStr p,
          mesh_path := pathStr mp, mesh_time := o.meshEngine.elapsed }
        [StageTag.meshS] hrr
      refine ⟨?_, ?_⟩
      · rw [hfields.1]
      · rw [hfields.2]
        exact hmpne
    | some mx =>
      have hd2 : o.decimateLoad.isOk = true := by
        simpa [decimOK, hmx] using hd
      cases hl : o.decimateLoad with
      | error e =>
        rw [hl] at hd2
        simp [Except.isOk, Except.toBool] at hd2
      | ok m =>
        obtain ⟨dout, hdm⟩ := decimate_mesh_ok_isOk m mp mx o.simplifyFaces
        simp only [hl, hdm]
        have hfields := rigPhase_ok_fields cfg o p ((relative_output_dir p ir od).getD od)
          (pStem (p.getLastD ""))
          { name := pStem (p.getLastD ""), image_path := pathStr p,
            mesh_path := pathStr mp, mesh_time := o.meshEngine.elapsed }
          [StageTag.meshS, StageTag.decimateS] hrr
        refine ⟨?_, ?_⟩
        · rw [hfields.1]
        · rw [hfields.2]
          exact hmpne
  by_cases hobj : o.meshEngine.objExists = true
  · refine main ((relative_output_dir p ir od).getD od ++ ["0", "mesh.obj"]) ?_ ?_
    · unfold generate_mesh
      simp [hne, hobj]
    · exact pathStr_two_ne _ "0" "mesh.obj" (by decide)
  · have hglb : o.meshEngine.glbExists = true := by
      rcases hog with hcase | hcase
      · exact absurd hcase hobj
      · exact hcase
    have hobjf : o.meshEngine.objExists = false := by
      cases hov : o.meshEngine.objExists
      · rfl
      · exact absurd hov hobj
    refine main ((relative_output_dir p ir od).getD od ++ ["0", "mesh.glb"]) ?_ ?_
    · unfold generate_mesh
      simp [hne, hobjf, hglb]
    · exact pathStr_two_ne _ "0" "mesh.glb" (by decide)

theorem process_single_meshOk_shape (cfg : PipeConfig) (o : ItemOracles)
    (p ir od : PathC) (hm : meshFails o = false) (hd : decimOK cfg o = true) :
    ∃ mp tr0, pathStr mp ≠ "" ∧
      (tr0 = [StageTag.meshS] ∨ tr0 = [StageTag.meshS, StageTag.decimateS]) ∧
      process_single cfg o p ir od =
        rigPhase cfg o p ((relative_output_dir p ir od).getD od) (pStem (p.getLastD ""))
          { name := pStem (p.getLastD ""), image_path := pathStr p,
            mesh_path := pathStr mp, mesh_time := o.meshEngine.elapsed } tr0 := by
  have hmf' := hm
  simp only [meshFails, Bool.or_eq_false_iff] at hmf'
  obtain ⟨hrc', hog'⟩ := hmf'
  have hrc0 : o.meshEngine.returncode = 0 := by simpa using hrc'
  have hne : ¬ (o.meshEngine.returncode ≠ 0) := by simp [hrc0]
  have key : ∀ mp : PathC, generate_mesh o.meshEngine
        (pStem (p.getLastD "")) ((relative_output_dir p ir od).getD od) = Except.ok mp →
      pathStr mp ≠ "" →
      ∃ mp' tr0, pathStr mp' ≠ "" ∧
        (tr0 = [StageTag.meshS] ∨ tr0 = [StageTag.meshS, StageTag.decimateS]) ∧
        process_single cfg o p ir od =
          rigPhase cfg o p ((relative_output_dir p ir od).getD od) (pStem (p.getLastD ""))
            { name := pStem (p.getLastD ""), image_path := pathStr p,
              mesh_path := pathStr mp', mesh_time := o.meshEngine.elapsed } tr0 := by
    intro mp hgm hmpne
    refine ⟨mp, ?_⟩
    unfold process_single
    simp only [hgm]
    cases hmx : cfg.max_faces with
    | none => exact ⟨[StageTag.meshS], hmpne, Or.inl rfl, rfl⟩
    | some mx =>
      have hd2 : o.decimateLoad.isOk = true := by
        simpa [decimOK, hmx] using hd
      cases hl : o.decimateLoad with
      | error e =>
        rw [hl] at hd2
        simp [Except.isOk, Except.toBool] at hd2
      | ok m =>
        obtain ⟨dout, hdm⟩ := decimate_mesh_ok_isOk m mp mx o.simplifyFaces
        simp only [hdm]
        exact ⟨[StageTag.meshS, StageTag.decimateS], hmpne, Or.inr rfl, rfl⟩
  by_cases hobj : o.meshEngine.objExists = true
  · refine key ((relative_output_dir p ir od).getD od ++ ["0", "mesh.obj"]) ?_
      (pathStr_two_ne _ "0" "mesh.obj" (by decide))
    unfold generate_mesh
    simp [hne, hobj]
  · have hobjf : o.meshEngine.objExists = false := by
      cases hv : o.meshEngine.objExists
      · rfl
      · exact absurd hv hobj
    have hglb : o.meshEngine.glbExists = true := by
      rw [hobjf] at hog'
      cases hv : o.meshEngine.glbExists
      · rw [hv] at hog'
        simp at hog'
      · rfl
    refine key ((relative_output_dir p ir od).getD od ++ ["0", "mesh.glb"]) ?_
      (pathStr_two_ne _ "0" "mesh.glb" (by decide))
    unfold generate_mesh
    simp [hne, hobjf, hglb]

theorem rigPhase_rig_fail (cfg : PipeConfig) (o : ItemOracles) (p c : PathC)
    (name : String) (r1 : CharacterResult) (tr : List StageTag)
    (hg : rigGate cfg p = true) (hro : rigOK o = false) :
    (rigPhase cfg o p c name r1 tr).1.error ≠ "" ∧
    (rigPhase cfg o p c name r1 tr).1.rigged_path = r1.rigged_path ∧
    (rigPhase cfg o p c name r1 tr).2 = tr ++ [StageTag.rigS] := by
  have hc : (!(!cfg.skip_rig && should_rig (pathStr p) cfg.rig_dirs) ||
      cfg.blender_bin.isNone) = false := by
    rw [rigSkip_eq, hg]
    rfl
  unfold rigPhase
  simp only [hc, Bool.false_eq_true, if_false]
  unfold rig_mesh
  by_cases hrc : o.rigEngine.returncode ≠ 0
  · simp only [if_pos hrc]
    exact ⟨string_append_ne_empty _ _ (by decide), trivial, trivial⟩
  · have hrc0 : o.rigEngine.returncode = 0 := not_not.mp hrc
    have hout : o.rigEngine.outputExists = false := by
      simpa [rigOK, hrc0] using hro
    simp only [if_neg hrc, hout, Bool.not_false, if_true]
    exact ⟨string_append_ne_empty _ _ (by decide), trivial, trivial⟩

theorem generate_mesh_meshOk_ex (o : ItemOracles) (name : String) (c : PathC)
    (hm : meshFails o = false) :
    ∃ mp, generate_mesh o.meshEngine name c = Except.ok mp := by
  have hmf' := hm
  simp only [meshFails, Bool.or_eq_false_iff] at hmf'
  obtain ⟨hrc', hog'⟩ := hmf'
  have hrc0 : o.meshEngine.returncode = 0 := by simpa using hrc'
  have hne : ¬ (o.meshEngine.returncode ≠ 0) := by simp [hrc0]
  by_cases hobj : o.meshEngine.objExists = true
  · refine ⟨c ++ ["0", "mesh.obj"], ?_⟩
    unfold generate_mesh
    simp [hne, hobj]
  · have hobjf : o.meshEngine.objExists = false := by
      cases hv : o.meshEngine.objExists
      · rfl
      · exact absurd hv hobj
    have hglb : o.meshEngine.glbExists = true := by
      rw [hobjf] at hog'
      cases hv : o.meshEngine.glbExists
      · rw [hv] at hog'
        simp at hog'
      · rfl
    refine ⟨c ++ ["0", "mesh.glb"], ?_⟩
    unfold generate_mesh
    simp [hne, hobjf, hglb]

theorem process_single_decim_fail (cfg : PipeConfig) (o : ItemOracles)
    (p ir od : PathC) (hm : meshFails o = false) (mx : Nat)
    (hmx : cfg.max_faces = some mx) (e : String)
    (hl : o.decimateLoad = Except.error e) :
    (process_single cfg o p ir od).2 = [StageTag.meshS, StageTag.decimateS] ∧
    (process_single cfg o p ir od).1.error = "decimation: " ++ e ∧
    (process_single cfg o p ir od).1.rigged_path = "" := by
  obtain ⟨mp, hgm⟩ := generate_mesh_meshOk_ex o (pStem (p.getLastD ""))
    ((relative_output_dir p ir od).getD od) hm
  unfold process_single
  simp only [hgm, hmx, hl, decimate_mesh]
  exact ⟨trivial, trivial, trivial⟩

/-! ## Claim theorems -/

/-- C10: every CharacterResult produced by process_single satisfies the
structural invariant: a non-empty rigged path implies a non-empty mesh
path and an empty error (a rigged artifact is only reported after a fully
successful run up to and including the rig stage), and an empty mesh path
implies a non-empty error (the only way to end without a mesh artifact is
a recorded mesh-stage failure). -/
theorem claim_C10 (cfg : PipeConfig) (o : ItemOracles) (p ir od : PathC) :
    ((process_single cfg o p ir od).1.rigged_path ≠ "" →
      (process_single cfg o p ir od).1.mesh_path ≠ "" ∧
      (process_single cfg o p ir od).1.error = "") ∧
    ((process_single cfg o p ir od).1.mesh_path = "" →
      (process_single cfg o p ir od).1.error ≠ "") := by
  unfold process_single
  cases hg : generate_mesh o.meshEngine (pStem (p.getLastD ""))
      ((relative_output_dir p ir od).getD od) with
  | error e =>
    simp only [hg]
    exact ⟨fun hh => absurd rfl hh, fun _ => string_append_ne_empty _ _ (by decide)⟩
  | ok mp =>
    have hmp : pathStr mp ≠ "" := by
      unfold generate_mesh at hg
      by_cases hne : o.meshEngine.returncode ≠ 0
      · rw [if_pos hne] at hg
        cases hg
      · rw [if_neg hne] at hg
        cases hobj : o.meshEngine.objExists with
        | true =>
          rw [hobj] at hg
          simp only [if_true] at hg
          cases hg
          exact pathStr_two_ne _ "0" "mesh.obj" (by decide)
        | false =>
          rw [hobj] at hg
          simp only [Bool.false_eq_true, if_false] at hg
          cases hglb : o.meshEngine.glbExists with
          | true =>
            rw [hglb] at hg
            simp only [if_true] at hg
            cases hg
            exact pathStr_two_ne _ "0" "mesh.glb" (by decide)
          | false =>
            rw [hglb] at hg
            simp only [Bool.false_eq_true, if_false] at hg
            cases hg
    simp only [hg]
    cases hmx : cfg.max_faces with
    | none =>
      exact rigPhase_C10 cfg o p ((relative_output_dir p ir od).getD od)
        (pStem (p.getLastD "")) _ [StageTag.meshS] hmp rfl rfl
    | some mx =>
      cases hl : o.decimateLoad with
      | error e =>
        simp only [decimate_mesh]
        exact ⟨fun hh => absurd rfl hh, fun h2 => absurd h2 hmp⟩
      | ok m =>
        obtain ⟨dout, hdm⟩ := decimate_mesh_ok_isOk m mp mx o.simplifyFaces
        simp only [hdm]
        exact rigPhase_C10 cfg o p ((relative_output_dir p ir od).getD od)
          (pStem (p.getLastD "")) _ [StageTag.meshS, StageTag.decimateS] hmp rfl rfl

/-- C6: with the earlier stages succeeding, the rig stage is invoked if
and only if rigging was not globally disabled, the Blender binary was
located, and should_rig accepts the image path against the configured
patterns (no pattern list, or some pattern appears slash-bracketed inside
the rendered path or as its leading directory).  An item that fails this
gate ends with an empty rigged path and an empty error.  The two closing
conjuncts check the gate on the spec examples: with patterns [monsters] a
path under a monsters directory is accepted and one under items is not. -/
theorem claim_C6 (cfg : PipeConfig) (o : ItemOracles) (p ir od : PathC)
    (hm : meshFails o = false) (hd : decimOK cfg o = true) :
    (StageTag.rigS ∈ (process_single cfg o p ir od).2 ↔
      (cfg.skip_rig = false ∧ cfg.blender_bin.isSome = true ∧
        should_rig (pathStr p) cfg.rig_dirs = true)) ∧
    (rigGate cfg p = false →
      (process_single cfg o p ir od).1.rigged_path = "" ∧
      (process_single cfg o p ir od).1.error = "") ∧
    should_rig "/assets/monsters/bat.png" (some ["monsters"]) = true ∧
    should_rig "/assets/items/sword.png" (some ["monsters"]) = false := by
  have hgate_iff : rigGate cfg p = true ↔
      (cfg.skip_rig = false ∧ cfg.blender_bin.isSome = true ∧
        should_rig (pathStr p) cfg.rig_dirs = true) := by
    unfold rigGate
    cases cfg.skip_rig <;> cases hsr : should_rig (pathStr p) cfg.rig_dirs <;>
      cases hb : cfg.blender_bin.isSome <;> simp [hsr, hb]
  obtain ⟨mp, tr0, hmpne, htr0, hshape⟩ := process_single_meshOk_shape cfg o p ir od hm hd
  have hnotin : StageTag.rigS ∉ tr0 := by
    rcases htr0 with h0 | h0 <;> rw [h0] <;> decide
  refine ⟨?_, ?_, by decide, by decide⟩
  · rw [hshape]
    by_cases hgv : rigGate cfg p = true
    · rw [rigPhase_run_trace cfg o p _ _ _ tr0 hgv]
      constructor
      · intro _
        exact hgate_iff.mp hgv
      · intro _
        simp
    · have hgf : rigGate cfg p = false := by
        cases hx : rigGate cfg p
        · rfl
        · exact absurd hx hgv
      rw [rigPhase_skip cfg o p _ _ _ tr0 hgf]
      constructor
      · intro hin
        exact absurd hin hnotin
      · intro hrhs
        exact absurd (hgate_iff.mpr hrhs) hgv
  · intro hgf
    rw [hshape, rigPhase_skip cfg o p _ _ _ tr0 hgf]
    exact ⟨rfl, rfl⟩

/-- C8: relative_output_dir is a pure, deterministic function of
(input_root, image_path, output_root): for an image at relative path
comps/fname under the input root it yields
output_root/comps/stem(fname), in particular output_root/a/b/c for
relative path a/b/c.png, and output_root/c for a single-file input whose
root is the file parent directory. -/
theorem claim_C8 (input_root output_dir comps : List String) (fname : String) :
    relative_output_dir (input_root ++ (comps ++ [fname])) input_root output_dir =
      some (output_dir ++ comps ++ [pStem fname]) ∧
    relative_output_dir (input_root ++ ["a", "b", "c.png"]) input_root output_dir =
      some (output_dir ++ ["a", "b"] ++ ["c"]) ∧
    relative_output_dir (input_root ++ ["c.png"]) input_root output_dir =
      some (output_dir ++ [] ++ ["c"]) := by
  have key : ∀ (ir od cs : List String) (fn : String),
      relative_output_dir (ir ++ (cs ++ [fn])) ir od = some (od ++ cs ++ [pStem fn]) := by
    intro ir od cs fn
    unfold relative_output_dir pathRelativeTo
    have hpre : ir.isPrefixOf (ir ++ (cs ++ [fn])) = true :=
      List.isPrefixOf_iff_prefix.mpr (List.prefix_append _ _)
    simp [hpre, List.drop_left, List.dropLast_concat, List.getLast?_concat]
  refine ⟨key input_root output_dir comps fname, ?_, ?_⟩
  · have h2 := key input_root output_dir ["a", "b"] "c.png"
    rw [show pStem "c.png" = "c" from by decide] at h2
    exact h2
  · have h3 := key input_root output_dir [] "c.png"
    rw [show pStem "c.png" = "c" from by decide] at h3
    exact h3

/-- C9: for a mesh whose face count is at or below the configured
ceiling, decimate_mesh returns the same path with equal original and
final counts, does not rewrite the mesh file, and is not a failure. -/
theorem claim_C9 (m : Mesh) (mesh_path : PathC) (mx : Nat) (sf : Nat → Nat)
    (h : m.faces ≤ mx) :
    decimate_mesh (Except.ok m) mesh_path mx sf =
      Except.ok ⟨mesh_path, m.faces, m.faces, false⟩ := by
  unfold decimate_mesh
  simp [h]

/-- Witness for C9 at a concrete mesh of 100 faces under a 500 ceiling. -/
theorem claim_C9_witness :
    (Mesh.mk 100).faces ≤ 500 ∧
    decimate_mesh (Except.ok (Mesh.mk 100)) ["out", "bat", "0", "mesh.obj"] 500
        (fun n => n) =
      Except.ok ⟨["out", "bat", "0", "mesh.obj"], 100, 100, false⟩ :=
  ⟨by decide,
   claim_C9 (Mesh.mk 100) ["out", "bat", "0", "mesh.obj"] 500 (fun n => n) (by decide)⟩

/-- C5 (amended): after the download loop, with the expected size known
and nonzero, a differing final partial size is reported as failure while
the partial file stays on disk untouched, and a matching size (or an
unknown expected size) renames the partial file to the destination and
reports success.  The source treats a reported size of zero like an
unknown size, because `if remote_size and ...` is false at 0. -/
theorem claim_C5 (pf : Option (List Nat)) (n : Nat) :
    (n ≠ 0 → (pf.getD []).length ≠ n →
      finishTransfer (some n) pf = ⟨some false, none, pf, []⟩) ∧
    (n ≠ 0 → (pf.getD []).length = n →
      finishTransfer (some n) pf = ⟨some true, pf, none, [NetEv.renameToDest]⟩) ∧
    finishTransfer none pf = ⟨some true, pf, none, [NetEv.renameToDest]⟩ := by
  refine ⟨?_, ?_, ?_⟩
  · intro hn hne
    unfold finishTransfer
    simp [truthy, hn, hne]
  · intro hn heq
    unfold finishTransfer
    simp [truthy, heq]
  · unfold finishTransfer
    simp [truthy]

/-- Witness for C5: a two-byte partial against expected sizes 3 and 2. -/
theorem claim_C5_witness :
    ((3 : Nat) ≠ 0 ∧ ((some [1, 2] : Option (List Nat)).getD []).length ≠ 3 ∧
      finishTransfer (some 3) (some [1, 2]) = ⟨some false, none, some [1, 2], []⟩) ∧
    ((2 : Nat) ≠ 0 ∧ ((some [1, 2] : Option (List Nat)).getD []).length = 2 ∧
      finishTransfer (some 2) (some [1, 2]) =
        ⟨some true, some [1, 2], none, [NetEv.renameToDest]⟩) :=
  ⟨⟨by decide, by decide, (claim_C5 (some [1, 2]) 3).1 (by decide) (by decide)⟩,
   ⟨by decide, by decide, (claim_C5 (some [1, 2]) 2).2.1 (by decide) (by decide)⟩⟩

/-- Counterexample to C5 as stated: the HEAD probe reports an expected
size of 0 (a known size), the transfer ends with a partial file of one
byte, so final size 1 differs from expected size 0; the claim requires a
failure report with the partial file kept, but the code renames the
partial file to the destination and reports success, because Python
truthiness makes `if remote_size and final_size != remote_size` false
when remote_size is 0. -/
theorem claim_C5_cex :
    (download_with_resume (some 0) 8 none none [Response.body [7] true]).result =
      some true ∧
    (download_with_resume (some 0) 8 none none [Response.body [7] true]).pfile = none ∧
    (download_with_resume (some 0) 8 none none [Response.body [7] true]).dest =
      some [7] ∧
    ([7] : List Nat).length ≠ 0 := by
  decide

/-- C1 (amended): if the destination already exists and its size equals
a nonzero expected remote size, a second invocation returns success
immediately after exactly one network request (the HEAD size probe),
performs no ranged GET requests, and leaves the destination untouched
(never deleted, truncated, or renamed over). -/
theorem claim_C1 (n chunk : Nat) (d : List Nat) (pf0 : Option (List Nat))
    (script : List Response) (hn : n ≠ 0) (hd : d.length = n) :
    download_with_resume (some n) chunk (some d) pf0 script =
      ⟨some true, some d, pf0, [NetEv.headReq]⟩ := by
  unfold download_with_resume
  simp [truthy, hd, hn]

/-- Witness for C1: a five-byte destination with expected size 5. -/
theorem claim_C1_witness :
    (5 : Nat) ≠ 0 ∧ ([1, 2, 3, 4, 5] : List Nat).length = 5 ∧
    download_with_resume (some 5) 4 (some [1, 2, 3, 4, 5]) none [] =
      ⟨some true, some [1, 2, 3, 4, 5], none, [NetEv.headReq]⟩ :=
  ⟨by decide, by decide,
   claim_C1 5 4 [1, 2, 3, 4, 5] none [] (by decide) (by decide)⟩

/-- Counterexample to C1 as stated: the destination exists and its size
(0 bytes) equals the expected remote size reported by the HEAD probe (0),
yet the second invocation performs two network requests (the HEAD probe
plus a ranged GET) and deletes the destination file, contradicting both
the zero-network-requests part and the never-deleted part of the claim. -/
theorem claim_C1_cex :
    ([] : List Nat).length = 0 ∧
    (download_with_resume (some 0) 4 (some []) none
        [Response.body [] true]).evs.countP isNetRequest = 2 ∧
    NetEv.unlinkDest ∈
      (download_with_resume (some 0) 4 (some []) none [Response.body [] true]).evs := by
  decide

/-- C2 (amended): the persisted manifest lists its entries in the
internal completion order of the results (the map over `results` in the
source preserves order and in particular the name sequence), while only
the console summary is printed in name-sorted order; the summary order is
sorted and is a permutation of the results. -/
theorem claim_C2 (rs : List CharacterResult) :
    (manifestCharacters rs).map ManifestEntry.name = rs.map CharacterResult.name ∧
    (summaryOrder rs).Pairwise (fun a b => a.name ≤ b.name) ∧
    (summaryOrder rs).Perm rs := by
  refine ⟨?_, ?_, ?_⟩
  · simp [manifestCharacters, manifestEntry]
  · have h := @List.sorted_mergeSort CharacterResult
      (fun a b : CharacterResult => decide (a.name ≤ b.name))
      (fun a b c hab hbc => by
        simp only [decide_eq_true_iff] at *
        exact le_trans hab hbc)
      (fun a b => by
        simp only [Bool.or_eq_true, decide_eq_true_iff]
        exact le_total a.name b.name) rs
    unfold summaryOrder
    exact h.imp fun hab => by simpa using hab
  · unfold summaryOrder
    exact List.mergeSort_perm rs _

/-- C3: process_single always returns a result (it is a total function of
its oracles, so no stage fault escapes its boundary), and every stage
failure is caught and recorded without running any later stage.  Conjunct
one: a mesh-stage failure is recorded in the single error field and the
stage trace stops at the mesh stage.  Conjunct two: a decimation-stage
failure is recorded as the decimation error, the trace stops after the
decimation stage (the rig stage never runs), and no rigged artifact is
reported.  Conjunct three: a rig-stage failure (with the gate passing) is
recorded in the error field and no rigged artifact is reported.  Conjunct
four: in a batch where every other item succeeds and exactly one item has
a deterministically failing mesh stage, the report holds exactly one
outcome per item, and exactly one outcome carries a non-empty error. -/
theorem claim_C3 (cfg : PipeConfig) (ir od p : PathC) (o : ItemOracles)
    (pre post : List (PathC × ItemOracles)) (bpath : PathC) (bad : ItemOracles)
    (mx : Nat) (e : String) :
    (meshFails o = true →
      (process_single cfg o p ir od).2 = [StageTag.meshS] ∧
      (process_single cfg o p ir od).1.error ≠ "") ∧
    (meshFails o = false → cfg.max_faces = some mx →
      o.decimateLoad = Except.error e →
      (process_single cfg o p ir od).2 = [StageTag.meshS, StageTag.decimateS] ∧
      (process_single cfg o p ir od).1.error = "decimation: " ++ e ∧
      (process_single cfg o p ir od).1.error ≠ "" ∧
      (process_single cfg o p ir od).1.rigged_path = "") ∧
    (meshFails o = false → decimOK cfg o = true → rigGate cfg p = true →
      rigOK o = false →
      (process_single cfg o p ir od).1.error ≠ "" ∧
      (process_single cfg o p ir od).1.rigged_path = "") ∧
    ((∀ x ∈ pre ++ post, itemSucceeds cfg x.1 x.2 = true) → meshFails bad = true →
      (runBatch cfg (pre ++ (bpath, bad) :: post) ir od).length =
        (pre ++ (bpath, bad) :: post).length ∧
      (runBatch cfg (pre ++ (bpath, bad) :: post) ir od).countP
        (fun r => r.error != "") = 1) := by
  refine ⟨?_, ?_, ?_, ?_⟩
  · intro hmf
    exact ⟨(process_single_mesh_fail cfg o p ir od hmf).1,
      (process_single_mesh_fail cfg o p ir od hmf).2.1⟩
  · intro hm hmx hl
    obtain ⟨htr, herr, hrg⟩ := process_single_decim_fail cfg o p ir od hm mx hmx e hl
    refine ⟨htr, herr, ?_, hrg⟩
    rw [herr]
    exact string_append_ne_empty _ _ (by decide)
  · intro hm hd hg hro
    obtain ⟨mp, tr0, hmpne, htr0, hshape⟩ :=
      process_single_meshOk_shape cfg o p ir od hm hd
    rw [hshape]
    refine ⟨(rigPhase_rig_fail cfg o p _ _ _ tr0 hg hro).1, ?_⟩
    rw [(rigPhase_rig_fail cfg o p _ _ _ tr0 hg hro).2.1]
  · intro hall hbad
    constructor
    · simp [runBatch]
    · unfold runBatch
      rw [List.map_append, List.map_cons, List.countP_append, List.countP_cons]
      have hzero : ∀ (l : List (PathC × ItemOracles)),
          (∀ x ∈ l, itemSucceeds cfg x.1 x.2 = true) →
          (l.map fun it => (process_single cfg it.2 it.1 ir od).1).countP
            (fun r => r.error != "") = 0 := by
        intro l hl
        apply List.countP_eq_zero.mpr
        intro r hrm
        simp only [List.mem_map] at hrm
        obtain ⟨x, hx, hxe⟩ := hrm
        have he := (process_single_ok cfg x.2 x.1 ir od (hl x hx)).1
        rw [← hxe]
        simp [he]
      have hpre := hzero pre fun x hx => hall x (List.mem_append_left _ hx)
      have hpost := hzero post fun x hx => hall x (List.mem_append_right _ hx)
      have hbadc : ((process_single cfg bad bpath ir od).1.error != "") = true := by
        have hne := (process_single_mesh_fail cfg bad bpath ir od hbad).2.1
        simpa using hne
      rw [hpre, hpost, if_pos hbadc]

/-- A configuration rigging only images under a monsters directory, with
no face ceiling and a located Blender binary. -/
def cfgW : PipeConfig :=
  { export_format := "fbx", skip_rig := false, rig_dirs := some ["monsters"],
    max_faces := none, blender_bin := some "blender" }

/-- Oracles for a fully successful item. -/
def oraclesW : ItemOracles :=
  { meshEngine := { returncode := 0, objExists := true, glbExists := true, elapsed := 3 },
    decimateLoad := Except.ok { faces := 10 },
    simplifyFaces := fun n => n,
    rigEngine := { returncode := 0, outputExists := true, elapsed := 2 } }

/-- Oracles whose mesh stage fails deterministically with exit code 1. -/
def oBad : ItemOracles :=
  { meshEngine := { returncode := 1, objExists := false, glbExists := false },
    decimateLoad := Except.ok { faces := 10 },
    simplifyFaces := fun n => n,
    rigEngine := { returncode := 0, outputExists := true } }

/-- A configuration like cfgW but with a face ceiling configured, for the
decimation-failure case. -/
def cfgD : PipeConfig :=
  { export_format := "fbx", skip_rig := false, rig_dirs := some ["monsters"],
    max_faces := some 500, blender_bin := some "blender" }

/-- Oracles whose decimation stage raises while loading the mesh. -/
def oDecimBad : ItemOracles :=
  { meshEngine := { returncode := 0, objExists := true, glbExists := true },
    decimateLoad := Except.error "load failed",
    simplifyFaces := fun n => n,
    rigEngine := { returncode := 0, outputExists := true } }

/-- Oracles whose rig stage fails with a nonzero Blender exit. -/
def oRigBad : ItemOracles :=
  { meshEngine := { returncode := 0, objExists := true, glbExists := true },
    decimateLoad := Except.ok { faces := 10 },
    simplifyFaces := fun n => n,
    rigEngine := { returncode := 1, outputExists := false } }

/-- An item path under a monsters directory. -/
def pW : PathC := ["in", "monsters", "bat.png"]

/-- An item path under an items directory. -/
def pItems : PathC := ["in", "items", "sword.png"]

/-- Witness for C3: a mesh-failed item ran only its mesh stage with a
recorded error; a decimation-failed item stopped after the decimation
stage with the decimation error recorded and no rigged artifact; a
rig-failed item recorded the rig error and no rigged artifact; and a
three-item batch whose middle item has the failing mesh stage yields
three outcomes with exactly one non-empty error. -/
theorem claim_C3_witness :
    ((process_single cfgW oBad ["in", "b.png"] ["in"] ["out"]).2 = [StageTag.meshS] ∧
      (process_single cfgW oBad ["in", "b.png"] ["in"] ["out"]).1.error ≠ "") ∧
    ((process_single cfgD oDecimBad pW ["in"] ["out"]).2 =
        [StageTag.meshS, StageTag.decimateS] ∧
      (process_single cfgD oDecimBad pW ["in"] ["out"]).1.error =
        "decimation: " ++ "load failed" ∧
      (process_single cfgD oDecimBad pW ["in"] ["out"]).1.error ≠ "" ∧
      (process_single cfgD oDecimBad pW ["in"] ["out"]).1.rigged_path = "") ∧
    ((process_single cfgW oRigBad pW ["in"] ["out"]).1.error ≠ "" ∧
      (process_single cfgW oRigBad pW ["in"] ["out"]).1.rigged_path = "") ∧
    ((runBatch cfgW ([(["in", "a.png"], oraclesW)] ++
        (["in", "b.png"], oBad) :: [(["in", "c.png"], oraclesW)]) ["in"] ["out"]).length =
      ([(["in", "a.png"], oraclesW)] ++
        (["in", "b.png"], oBad) :: [(["in", "c.png"], oraclesW)]).length ∧
      (runBatch cfgW ([(["in", "a.png"], oraclesW)] ++
        (["in", "b.png"], oBad) :: [(["in", "c.png"], oraclesW)]) ["in"] ["out"]).countP
        (fun r => r.error != "") = 1) :=
  ⟨(claim_C3 cfgW ["in"] ["out"] ["in", "b.png"] oBad [(["in", "a.png"], oraclesW)]
      [(["in", "c.png"], oraclesW)] ["in", "b.png"] oBad 500 "load failed").1 (by decide),
   (claim_C3 cfgD ["in"] ["out"] pW oDecimBad [] [] pW oDecimBad
      500 "load failed").2.1 (by decide) (by rfl) (by rfl),
   (claim_C3 cfgW ["in"] ["out"] pW oRigBad [] [] pW oRigBad
      500 "load failed").2.2.1 (by decide) (by decide) (by decide) (by decide),
   (claim_C3 cfgW ["in"] ["out"] ["in", "b.png"] oBad [(["in", "a.png"], oraclesW)]
      [(["in", "c.png"], oraclesW)] ["in", "b.png"] oBad
      500 "load failed").2.2.2 (by decide) (by decide)⟩

/-- Witness for C6: the monsters item is rigged (its trace reaches the
rig stage and the gate conditions hold), and the items item fails the
gate, ending with an empty rigged path and an empty error. -/
theorem claim_C6_witness :
    (StageTag.rigS ∈ (process_single cfgW oraclesW pW ["in"] ["out"]).2 ↔
      (cfgW.skip_rig = false ∧ cfgW.blender_bin.isSome = true ∧
        should_rig (pathStr pW) cfgW.rig_dirs = true)) ∧
    ((process_single cfgW oraclesW pItems ["in"] ["out"]).1.rigged_path = "" ∧
      (process_single cfgW oraclesW pItems ["in"] ["out"]).1.error = "") :=
  ⟨(claim_C6 cfgW oraclesW pW ["in"] ["out"] (by decide) (by decide)).1,
   (claim_C6 cfgW oraclesW pItems ["in"] ["out"] (by decide) (by decide)).2.1 (by decide)⟩

/-- Witness for C10: a fully successful item has a non-empty mesh path
with an empty error, and a mesh-failed item has a non-empty error. -/
theorem claim_C10_witness :
    ((process_single cfgW oraclesW pW ["in"] ["out"]).1.mesh_path ≠ "" ∧
      (process_single cfgW oraclesW pW ["in"] ["out"]).1.error = "") ∧
    (process_single cfgW oBad pW ["in"] ["out"]).1.error ≠ "" :=
  ⟨(claim_C10 cfgW oraclesW pW ["in"] ["out"]).1 (by decide),
   (claim_C10 cfgW oBad pW ["in"] ["out"]).2 (by decide)⟩

/-- C7: discovery returns exactly one item for a single-file input; for a
directory input it returns exactly the existing files strictly under it
whose extension (lowercased) is in the fixed image allow-list, sorted
lexicographically by full path in the order Python compares paths
(componentwise on the parts, partsLE); and the run aborts with
NotFoundError exactly when find_images is empty, in particular whenever
the input path does not exist at all. -/
theorem claim_C7 (fs : FSys) (input : PathC) :
    (input ∈ fs.files → find_images fs input = [input]) ∧
    (input ∉ fs.files →
      (∀ f, f ∈ find_images fs input ↔
        (f ∈ fs.files ∧ input <+: f ∧ f ≠ input ∧
          (pSuffix (f.getLastD "")).toLower ∈ IMAGE_EXTENSIONS)) ∧
      (find_images fs input).Pairwise (fun a b => partsLE a b = true)) ∧
    (discover fs input = Except.error DiscoverError.NotFoundError ↔
      find_images fs input = []) ∧
    ((input ∉ fs.files ∧ ∀ f ∈ fs.files, ¬ input <+: f) →
      discover fs input = Except.error DiscoverError.NotFoundError) := by
  have hdisc : discover fs input = Except.error DiscoverError.NotFoundError ↔
      find_images fs input = [] := by
    unfold discover
    by_cases he : find_images fs input = []
    · simp [he]
    · simp [he, List.isEmpty_iff]
  refine ⟨?_, ?_, hdisc, ?_⟩
  · intro h
    unfold find_images
    simp [h]
  · intro hni
    constructor
    · intro f
      unfold find_images
      simp only [if_neg hni, List.mem_filter, List.mem_mergeSort, Bool.and_eq_true,
        decide_eq_true_iff]
      tauto
    · unfold find_images
      simp only [if_neg hni]
      apply List.Pairwise.filter
      exact @List.sorted_mergeSort PathC partsLE
        (fun a b c => partsLE_trans a b c)
        (fun a b => partsLE_total a b)
        (fs.files.filter fun f => decide (input <+: f) && decide (f ≠ input))
  · rintro ⟨h1, h2⟩
    have hempty : find_images fs input = [] := by
      unfold find_images
      simp only [if_neg h1]
      have hfil : (fs.files.filter fun f =>
          decide (input <+: f) && decide (f ≠ input)) = [] := by
        apply List.filter_eq_nil_iff.mpr
        intro a ha
        simp [h2 a ha]
      rw [hfil]
      simp
    exact hdisc.mpr hempty

/-- A concrete three-file tree under directory d. -/
def fsW : FSys := ⟨[["d", "x.png"], ["d", "sub", "y.jpg"], ["d", "n.txt"]]⟩

/-- Witness for C7: the single-file input returns exactly that item; the
nested jpg is a member of the directory enumeration by the membership
characterization; the enumeration is sorted in the componentwise path
order; and a non-existing input aborts with NotFoundError. -/
theorem claim_C7_witness :
    find_images fsW ["d", "x.png"] = [["d", "x.png"]] ∧
    (["d", "sub", "y.jpg"] ∈ find_images fsW ["d"] ↔
      (["d", "sub", "y.jpg"] ∈ fsW.files ∧ ["d"] <+: ["d", "sub", "y.jpg"] ∧
        (["d", "sub", "y.jpg"] : PathC) ≠ ["d"] ∧
        (pSuffix ((["d", "sub", "y.jpg"] : PathC).getLastD "")).toLower ∈
          IMAGE_EXTENSIONS)) ∧
    (find_images fsW ["d"]).Pairwise (fun a b => partsLE a b = true) ∧
    discover fsW ["z"] = Except.error DiscoverError.NotFoundError :=
  ⟨(claim_C7 fsW ["d", "x.png"]).1 (by decide),
   ((claim_C7 fsW ["d"]).2.1 (by decide)).1 ["d", "sub", "y.jpg"],
   ((claim_C7 fsW ["d"]).2.1 (by decide)).2,
   (claim_C7 fsW ["z"]).2.2.2 ⟨by decide, by decide⟩⟩

/-- A result completing first with the lexicographically later name. -/
def resB : CharacterResult := { name := "b", image_path := "b.png" }

/-- A result completing second with the lexicographically earlier name. -/
def resA : CharacterResult := { name := "a", image_path := "a.png" }

/-- Counterexample to C2 as stated: two completion orders of the same two
outcomes persist different manifests, and the manifest for completion
order [b, a] lists names in the order [b, a], not sorted by item name.
Only the printed summary is sorted; the persisted characters array is
built from the results in completion order. -/
theorem claim_C2_cex :
    manifestCharacters [resB, resA] ≠ manifestCharacters [resA, resB] ∧
    (manifestCharacters [resB, resA]).map ManifestEntry.name = ["b", "a"] := by
  constructor
  · decide
  · decide

theorem fetchLoop_pfile_extends (remote : Option Nat) (chunk : Nat)
    (script : List Response) (pf : Option (List Nat)) :
    (pf.getD []) <+: ((fetchLoop remote chunk pf script).pfile.getD []) := by
  induction script generalizing pf with
  | nil =>
    unfold fetchLoop
    split
    · exact List.prefix_refl _
    · exact List.prefix_refl _
  | cons r rest ih =>
    unfold fetchLoop
    split
    · exact List.prefix_refl _
    · cases r with
      | connFail =>
        simpa using ih pf
      | body bytes ok =>
        cases ok with
        | true =>
          by_cases h0 : bytes.length = 0
          · simp [h0]
          · by_cases hlt : bytes.length < chunk
            · simp [h0, hlt]
            · have step := ih (some (pf.getD [] ++ bytes))
              simp only [Option.getD_some] at step
              have base : (pf.getD []) <+: (pf.getD [] ++ bytes) :=
                List.prefix_append _ _
              simpa [h0, hlt] using base.trans step
        | false =>
          have step := ih (some (pf.getD [] ++ bytes))
          simp only [Option.getD_some] at step
          have base : (pf.getD []) <+: (pf.getD [] ++ bytes) :=
            List.prefix_append _ _
          simpa using base.trans step

theorem fetchLoop_firstGet (remote : Option Nat) (chunk : Nat)
    (pf : Option (List Nat)) (script : List Response) (o c : Nat)
    (h : firstGet (fetchLoop remote chunk pf script).evs = some (o, c)) :
    o = (pf.getD []).length ∧ c = chunk := by
  revert h
  unfold fetchLoop
  split
  · intro h
    simp [firstGet] at h
  · rename_i hnb
    match script with
    | [] =>
      intro h
      simp [firstGet] at h
    | Response.connFail :: rest =>
      intro h
      simp only [firstGet] at h
      exact ⟨(Prod.mk.injEq .. ▸ Option.some.injEq .. ▸ h).1.symm,
        (Prod.mk.injEq .. ▸ Option.some.injEq .. ▸ h).2.symm⟩
    | Response.body bytes ok :: rest =>
      cases ok with
      | true =>
        by_cases h0 : bytes.length = 0
        · intro h
          simp only [h0, if_true, if_pos rfl] at h
          simp [firstGet, h0] at h
          exact ⟨h.1.symm, h.2.symm⟩
        · by_cases hlt : bytes.length < chunk
          · intro h
            simp only [firstGet, h0, hlt] at h
            simp [firstGet, h0, hlt] at h
            exact ⟨h.1.symm, h.2.symm⟩
          · intro h
            simp only [firstGet, h0, hlt] at h
            simp [firstGet, h0, hlt] at h
            exact ⟨h.1.symm, h.2.symm⟩
      | false =>
        intro h
        simp only [firstGet] at h
        simp [firstGet] at h
        exact ⟨h.1.symm, h.2.symm⟩

/-- C4: during a fetch the partial file only ever grows.  Conjunct one:
whatever the loop does with any response script, the starting partial
content stays a prefix of the final partial content (no byte already
flushed is ever lost, and the length never decreases).  Conjunct two: a
network error mid-request (a response delivering some flushed bytes and
then failing) retains exactly those bytes, waits the fixed 5-second
backoff, and continues the loop on the grown partial file.  Conjunct
three: whenever the loop issues its next ranged GET, the resume offset is
recomputed as the current partial-file length. -/
theorem claim_C4 (remote : Option Nat) (chunk : Nat) (pf : Option (List Nat))
    (script : List Response) :
    ((pf.getD []) <+: ((fetchLoop remote chunk pf script).pfile.getD [])) ∧
    (∀ bytes rest, topBreak remote pf = false →
      fetchLoop remote chunk pf (Response.body bytes false :: rest) =
        ⟨(fetchLoop remote chunk (some (pf.getD [] ++ bytes)) rest).finished,
         (fetchLoop remote chunk (some (pf.getD [] ++ bytes)) rest).pfile,
         NetEv.getReq (pf.getD []).length chunk :: NetEv.sleep 5 ::
           (fetchLoop remote chunk (some (pf.getD [] ++ bytes)) rest).evs⟩) ∧
    (∀ o c, firstGet (fetchLoop remote chunk pf script).evs = some (o, c) →
      o = (pf.getD []).length ∧ c = chunk) := by
  refine ⟨fetchLoop_pfile_extends remote chunk script pf, ?_, ?_⟩
  · intro bytes rest hnb
    conv_lhs => unfold fetchLoop
    simp [hnb]
  · intro o c h
    exact fetchLoop_firstGet remote chunk pf script o c h

/-- Witness for C4: starting from a one-byte partial file, a request that
flushes one byte and then errors keeps both bytes, sleeps 5 seconds, and
the first request offset of that run was the partial length 1. -/
theorem claim_C4_witness :
    ((([9] : List Nat)) <+:
      ((fetchLoop none 2 (some [9]) [Response.body [7] false]).pfile.getD [])) ∧
    fetchLoop none 2 (some [9]) [Response.body [7] false] =
      ⟨(fetchLoop none 2 (some ([9] ++ [7])) []).finished,
       (fetchLoop none 2 (some ([9] ++ [7])) []).pfile,
       NetEv.getReq 1 2 :: NetEv.sleep 5 ::
         (fetchLoop none 2 (some ([9] ++ [7])) []).evs⟩ ∧
    ((1 : Nat) = 1 ∧ (2 : Nat) = 2) :=
  ⟨(claim_C4 none 2 (some [9]) [Response.body [7] false]).1,
   (claim_C4 none 2 (some [9]) [Response.body [7] false]).2.1 [7] [] (by decide),
   (claim_C4 none 2 (some [9]) [Response.body [7] false]).2.2 1 2 (by decide)⟩

end ImgChar
